import Mathlib

/-!
Shallow embedding of the delivery-products data hook and the delivery order
card timer of the elitepedidos6 repository, together with proofs about the
realtime reconciliation logic, the CRUD façade and the presentation
derivations.

The authoritative source is `src/hooks/useDeliveryProducts.ts`; an earlier
revision of the same hook kept in the repository (here suffixed `_v3`) is
embedded separately where a claim refers to its zero-rows-affected handling.
The backend (Supabase/PostgREST) is external to the repository: every function
that talks to it is embedded as a pure function of the response(s) it
receives, so theorems quantify over responses and state backend scenarios as
hypotheses.
-/

namespace Elite

/-- JavaScript runtime values, as far as the hook manipulates them:
`undefined`, `null`, booleans, numbers, strings, arrays and plain objects
(ordered key/value lists, as `Object.entries` exposes them). -/
inductive JsVal where
  | undefined : JsVal
  | null : JsVal
  | bool : Bool → JsVal
  | num : Rat → JsVal
  | str : String → JsVal
  | arr : List JsVal → JsVal
  | obj : List (String × JsVal) → JsVal

/-- JavaScript truthiness for the values above (`undefined`, `null`, `false`,
`0`, `""` are falsy; arrays and objects are always truthy). -/
def JsVal.truthy : JsVal → Bool
  | .undefined => false
  | .null => false
  | .bool b => b
  | .num q => q != 0
  | .str s => s != ""
  | .arr _ => true
  | .obj _ => true

/-- `Array.isArray`. -/
def JsVal.isArray : JsVal → Bool
  | .arr _ => true
  | _ => false

/-- Test for the `undefined` value (the hook filters entries by
`value !== undefined`). -/
def JsVal.isUndefined : JsVal → Bool
  | .undefined => true
  | _ => false

/-- JavaScript `String.prototype.startsWith`, via character lists so that it
evaluates by kernel reduction. -/
def jsStartsWith (s pre : String) : Bool :=
  pre.toList.isPrefixOf s.toList

/-- JavaScript `String.prototype.includes` (substring test). -/
def strContains (s pat : String) : Bool :=
  (List.range (s.toList.length + 1)).any
    (fun i => pat.toList.isPrefixOf (s.toList.drop i))

/-- The `category` union type of `DeliveryProduct`. -/
inductive Category where
  | acai | combo | milkshake | vitamina | sorvetes | bebidas
  | complementos | sobremesas | outros
deriving DecidableEq, Repr

/-- The `DeliveryProduct` interface of `useDeliveryProducts.ts`.  Optional
fields are `Option`s; the loosely typed JSON fields are `JsVal`s. -/
structure DeliveryProduct where
  id : String
  name : String
  category : Category
  price : Rat
  original_price : Option Rat := none
  description : String
  image_url : Option String := none
  is_active : Bool
  is_weighable : Bool
  price_per_gram : Option Rat := none
  complement_groups : Option JsVal := none
  sizes : Option JsVal := none
  scheduled_days : Option JsVal := none
  availability_type : Option String := none
  created_at : String
  updated_at : String

/-- The keys (`id` fields) of a local products list. -/
def keysOf (l : List DeliveryProduct) : List String := l.map (·.id)

/-- The event kinds delivered on the `delivery_products_changes` channel. -/
inductive EventType where
  | INSERT | UPDATE | DELETE
deriving DecidableEq, Repr

/-- A realtime `postgres_changes` payload: event kind plus the optional
`new` and `old` rows (the handler tests each for presence). -/
structure RealtimePayload where
  eventType : EventType
  new : Option DeliveryProduct := none
  old : Option DeliveryProduct := none

/-- The `INSERT` branch of the realtime handler: append `payload.new` unless a
record with the same `id` is already present. -/
def handleInsert (prev : List DeliveryProduct) (n : DeliveryProduct) :
    List DeliveryProduct :=
  if prev.any (fun p => p.id == n.id) then prev else prev ++ [n]

/-- The `UPDATE` branch: replace every record whose `id` matches
`payload.new.id` by `payload.new`, leaving the rest untouched. -/
def handleUpdate (prev : List DeliveryProduct) (n : DeliveryProduct) :
    List DeliveryProduct :=
  prev.map (fun p => if p.id == n.id then n else p)

/-- The `DELETE` branch: drop every record whose `id` matches
`payload.old.id`. -/
def handleDelete (prev : List DeliveryProduct) (old : DeliveryProduct) :
    List DeliveryProduct :=
  prev.filter (fun p => p.id ≠ old.id)

/-- The whole realtime payload handler (the `switch` in the subscription
callback): dispatch on the event type, doing nothing when the tested row of
the payload is absent. -/
def handleRealtime (payload : RealtimePayload) (prev : List DeliveryProduct) :
    List DeliveryProduct :=
  match payload.eventType with
  | .INSERT =>
    match payload.new with
    | some n => handleInsert prev n
    | none => prev
  | .UPDATE =>
    match payload.new with
    | some n => handleUpdate prev n
    | none => prev
  | .DELETE =>
    match payload.old with
    | some o => handleDelete prev o
    | none => prev

/-- Local-state mutations of the products list, as performed by the hook: the
realtime payload handler, and the `setProducts` calls made by `createProduct`
(append the confirmed row), `updateProduct` (replace rows with the matching
key by the returned row) and `deleteProduct` (drop rows with the key). -/
inductive Op where
  | rt (payload : RealtimePayload)
  | createSuccess (d : DeliveryProduct)
  | updateSuccess (i : String) (d : DeliveryProduct)
  | deleteSuccess (i : String)

/-- Effect of one mutation on the local products list, read off the
corresponding `setProducts` updater in `useDeliveryProducts.ts`. -/
def applyOp (st : List DeliveryProduct) : Op → List DeliveryProduct
  | .rt payload => handleRealtime payload st
  | .createSuccess d => st ++ [d]
  | .updateSuccess i d => st.map (fun p => if p.id == i then d else p)
  | .deleteSuccess i => st.filter (fun p => p.id != i)

/-- At most one entry per key: the ids of the list are pairwise distinct. -/
def NoDupKeys (l : List DeliveryProduct) : Prop := (keysOf l).Nodup

instance (l : List DeliveryProduct) : Decidable (NoDupKeys l) :=
  inferInstanceAs (Decidable (keysOf l).Nodup)

/-- Side conditions under which a single mutation cannot create a duplicate
key: a `createProduct` success must append a key not currently present (the
code performs no existence check on this path), and an `updateProduct`
success replaces the scoped key by a row carrying that same key (as a backend
write scoped by `eq('id', id)` returns). Realtime events need no condition. -/
def safeOp (st : List DeliveryProduct) : Op → Bool
  | .createSuccess d => !(st.any (fun p => p.id == d.id))
  | .updateSuccess i d => d.id == i
  | _ => true

/-- A sequence of mutations is safe when each one is safe in the state the
previous ones produced. -/
def safeSeq : List DeliveryProduct → List Op → Bool
  | _, [] => true
  | st, op :: ops => safeOp st op && safeSeq (applyOp st op) ops

/-- Sample record used by the concrete witnesses below. -/
def sampleProduct (i : String) : DeliveryProduct :=
  { id := i
    name := "Açaí 300g"
    category := .acai
    price := 10
    description := "demo"
    is_active := true
    is_weighable := false
    created_at := "2025-01-01T00:00:00.000Z"
    updated_at := "2025-01-01T00:00:00.000Z" }

/-- The two environment variables read through `import.meta.env`; `none`
stands for `undefined`. -/
structure EnvConfig where
  url : Option String := none
  key : Option String := none

/-- The configuration check of `fetchProducts` and of the subscription
effect: `!supabaseUrl || !supabaseKey || supabaseUrl === 'your_supabase_url_here'
|| supabaseKey === 'your_supabase_anon_key_here' ||
supabaseUrl.includes('placeholder')`. -/
def configMissing (c : EnvConfig) : Bool :=
  match c.url, c.key with
  | none, _ => true
  | some _, none => true
  | some u, some k =>
    u == "" || k == "" || u == "your_supabase_url_here" ||
    k == "your_supabase_anon_key_here" || strContains u "placeholder"

/-- The lighter configuration check of `createProduct` and `updateProduct`:
`!supabaseUrl || supabaseUrl.includes('placeholder')`. -/
def urlMissing (c : EnvConfig) : Bool :=
  match c.url with
  | none => true
  | some u => u == "" || strContains u "placeholder"

/-- A PostgREST error object (only the fields the hook inspects). -/
structure PgError where
  code : String := ""
  message : String := ""

/-- Response of a `.select().single()` / `.maybeSingle()` call returning one
product row or none. -/
structure SingleResp where
  data : Option DeliveryProduct := none
  error : Option PgError := none

/-- Response of a `.select('*')` call returning a row array (`none` models a
`null` data field). -/
structure ListResp where
  data : Option (List DeliveryProduct) := none
  error : Option PgError := none

/-- Response of the `.select('id').eq('id', id).maybeSingle()` existence
probe: `data` carries just the selected `id` column when a row matched. -/
structure IdProbeResp where
  data : Option String := none
  error : Option PgError := none

/-- The hook state touched by `fetchProducts`. -/
structure HookState where
  products : List DeliveryProduct
  loading : Bool
  error : Option String

/-- The `availability` sub-object of a demo product. -/
structure DemoAvailability where
  type : Option String := none

/-- Shape of the static demo products in `../data/products`, as read by the
fallback mapping in `fetchProducts` (the data file itself is not part of the
hook; only the fields the mapping dereferences are modelled). -/
structure DemoProduct where
  id : String
  name : String
  category : Category
  price : Rat
  originalPrice : Option Rat := none
  description : String
  image : Option String := none
  isActive : Option Bool := none
  is_weighable : Option Bool := none
  pricePerGram : Option Rat := none
  complementGroups : Option JsVal := none
  sizes : Option JsVal := none
  scheduledDays : Option JsVal := none
  availability : Option DemoAvailability := none

/-- JavaScript `a || b` on an optional string (`undefined` and `""` fall
through to the default), as in `product.availability?.type || 'always'`. -/
def jsStrOr (o : Option String) (dflt : String) : String :=
  match o with
  | none => dflt
  | some s => if s == "" then dflt else s

/-- The demo-product mapping of the `fetchProducts` fallback branch
(`demoProducts.map (product => ({...}))`), with `now` the mapping-time
`new Date().toISOString()`. -/
def mapDemoProduct (now : String) (p : DemoProduct) : DeliveryProduct :=
  { id := p.id
    name := p.name
    category := p.category
    price := p.price
    original_price := p.originalPrice
    description := p.description
    image_url := p.image
    is_active := p.isActive != some false
    is_weighable := p.is_weighable.getD false
    price_per_gram := p.pricePerGram
    complement_groups := p.complementGroups
    sizes := p.sizes
    scheduled_days := p.scheduledDays
    availability_type := some (jsStrOr (p.availability.bind (·.type)) "always")
    created_at := now
    updated_at := now }

/-- `fetchProducts` as a function of the environment, the demo data the
dynamic import would yield, the current time and the backend response; it
returns the hook state it leaves behind (`setError(null)` runs first, so the
fallback and success paths end with `error = none`). -/
def fetchProducts (cfg : EnvConfig) (demo : List DemoProduct) (now : String)
    (resp : ListResp) : HookState :=
  if configMissing cfg then
    { products := demo.map (mapDemoProduct now), loading := false,
      error := none }
  else
    match resp.error with
    | some e => { products := [], loading := false, error := some e.message }
    | none =>
      { products := resp.data.getD [], loading := false, error := none }

/-- Distinct failure cases of `createProduct`: the configuration guard, a
thrown backend error (`if (error) throw error`), and the missing-data guard
(`if (!data || !data.id) throw new Error('Produto não foi criado…')`). -/
inductive CreateErr where
  | notConfigured : CreateErr
  | backend : String → CreateErr
  | noData : CreateErr
deriving DecidableEq

/-- `createProduct` of the authoritative hook, as a function of the insert
response; it returns the outcome together with the resulting local list
(`setProducts(prev => [...prev, data])` runs only on the fully validated
path). -/
def createProduct (cfg : EnvConfig) (resp : SingleResp)
    (prev : List DeliveryProduct) :
    Except CreateErr DeliveryProduct × List DeliveryProduct :=
  if urlMissing cfg then (.error .notConfigured, prev)
  else
    match resp.error with
    | some e => (.error (.backend e.message), prev)
    | none =>
      match resp.data with
      | none => (.error .noData, prev)
      | some d =>
        if d.id == "" then (.error .noData, prev)
        else (.ok d, prev ++ [d])

/-- JavaScript objects as ordered key/value lists (`Object.entries` order). -/
abbrev JsObj := List (String × JsVal)

/-- Property read `o.k` (`undefined` when the key is absent). -/
def getProp (o : JsObj) (k : String) : JsVal :=
  match o.find? (fun kv => kv.1 == k) with
  | some kv => kv.2
  | none => .undefined

/-- Property write `o.k = v` / spread-override `{...o, k: v}`: replace the
value in place when the key is present, append otherwise. -/
def setProp (o : JsObj) (k : String) (v : JsVal) : JsObj :=
  if o.any (fun kv => kv.1 == k) then
    o.map (fun kv => if kv.1 == k then (k, v) else kv)
  else o ++ [(k, v)]

/-- Rest-pattern destructuring `const {k₁, …, kₙ, ...rest} = o`. -/
def omitKeys (o : JsObj) (ks : List String) : JsObj :=
  o.filter (fun kv => !(ks.contains kv.1))

/-- The `complement_groups` normalization of `updateProduct`: when the field
is truthy it is kept only if it is an array and replaced by `null`
otherwise. -/
def cleanComplementGroups (o : JsObj) : JsObj :=
  if (getProp o "complement_groups").truthy then
    setProp o "complement_groups"
      (if (getProp o "complement_groups").isArray then
        getProp o "complement_groups"
      else .null)
  else o

/-- The `safeUpdate` payload construction of `updateProduct`: drop the
destructured server-managed keys, normalize `complement_groups`, spread in a
fresh `updated_at`, and keep only entries whose value is not `undefined`. -/
def safeUpdate (updates : JsObj) (now : String) : JsObj :=
  let clean :=
    omitKeys updates ["created_at", "updated_at", "has_complements", "id"]
  let clean2 := cleanComplementGroups clean
  (setProp clean2 "updated_at" (.str now)).filter
    (fun kv => !kv.2.isUndefined)

/-- The field names of `DeliveryProduct`, hence the keys a well-typed
`Partial<DeliveryProduct>` patch can carry. -/
def productPatchKeys : List String :=
  ["id", "name", "category", "price", "original_price", "description",
   "image_url", "is_active", "is_weighable", "price_per_gram",
   "complement_groups", "sizes", "scheduled_days", "availability_type",
   "created_at", "updated_at"]

/-- Failure cases of the authoritative `updateProduct` revision, one per
throw site. -/
inductive MainUpdateErr where
  | tempId : MainUpdateErr
  | notConfigured : MainUpdateErr
  | checkFailed : String → MainUpdateErr
  | notFound : MainUpdateErr
  | pgrst116 : MainUpdateErr
  | uniqueViolation : MainUpdateErr
  | permissionDenied : MainUpdateErr
  | other : String → MainUpdateErr
  | noDataReturned : MainUpdateErr
deriving DecidableEq

/-- `updateProduct` of the authoritative hook: temp-id guard, configuration
guard, existence pre-check (`select('id').maybeSingle()`), then the scoped
write (`update(safeUpdate).eq('id', id).select('*').single()`) with its error
code translation; returns the outcome and the resulting local list. -/
def updateProduct_main (cfg : EnvConfig) (i : String)
    (checkResp : IdProbeResp) (updResp : SingleResp)
    (prev : List DeliveryProduct) :
    Except MainUpdateErr DeliveryProduct × List DeliveryProduct :=
  if jsStartsWith i "temp-" || jsStartsWith i "demo-" then
    (.error .tempId, prev)
  else if urlMissing cfg then (.error .notConfigured, prev)
  else
    match checkResp.error with
    | some e => (.error (.checkFailed e.message), prev)
    | none =>
      match checkResp.data with
      | none => (.error .notFound, prev)
      | some _ =>
        match updResp.error with
        | some e =>
          if e.code == "PGRST116" then (.error .pgrst116, prev)
          else if e.code == "23505" then (.error .uniqueViolation, prev)
          else if e.code == "42501" then (.error .permissionDenied, prev)
          else (.error (.other e.message), prev)
        | none =>
          match updResp.data with
          | none => (.error .noDataReturned, prev)
          | some d =>
            if d.id == "" then (.error .noDataReturned, prev)
            else (.ok d, prev.map (fun p => if p.id == i then d else p))

/-- Failure cases of the earlier `updateProduct` revision, one per throw
site. -/
inductive V3UpdateErr where
  | notConfigured : V3UpdateErr
  | notFoundAfterNoRows : V3UpdateErr
  | uniqueViolation : V3UpdateErr
  | permissionDenied : V3UpdateErr
  | notFoundOrNoAccess : V3UpdateErr
  | other : String → V3UpdateErr
deriving DecidableEq

/-- Outcome of the earlier `updateProduct` revision: a returned product, the
`return null` path taken when the write returns an empty row array, or a
thrown error. -/
inductive V3Outcome where
  | ok : DeliveryProduct → V3Outcome
  | nullResult : V3Outcome
  | err : V3UpdateErr → V3Outcome

/-- `updateProduct` of the earlier hook revision kept in the repository: no
temp-id guard and no pre-check; the write uses `.select('*')` (row array).
On error code `PGRST116` (zero rows affected) it re-probes the row with
`.select('*').single()` and either treats the call as a successful no-op
returning the existing row, or throws not-found; an error-free response with
an empty array yields `return null`. -/
def updateProduct_v3 (cfg : EnvConfig) (i : String)
    (updResp : ListResp) (recheckResp : SingleResp)
    (prev : List DeliveryProduct) :
    V3Outcome × List DeliveryProduct :=
  if urlMissing cfg then (.err .notConfigured, prev)
  else
    match updResp.error with
    | some e =>
      if e.code == "PGRST116" then
        match recheckResp.error, recheckResp.data with
        | none, some r =>
          (.ok r, prev.map (fun p => if p.id == i then r else p))
        | _, _ => (.err .notFoundAfterNoRows, prev)
      else if e.code == "23505" then (.err .uniqueViolation, prev)
      else if e.code == "42501" then (.err .permissionDenied, prev)
      else if e.code == "PGRST301" then (.err .notFoundOrNoAccess, prev)
      else (.err (.other e.message), prev)
    | none =>
      match updResp.data with
      | none => (.nullResult, prev)
      | some [] => (.nullResult, prev)
      | some (d :: _) =>
        (.ok d, prev.map (fun p => if p.id == i then d else p))

/-- What the awaited existence lookup of `validateProductExists` can do:
throw, or deliver a response. -/
inductive LookupOutcome where
  | thrown : LookupOutcome
  | resp : IdProbeResp → LookupOutcome

/-- `validateProductExists`: placeholder ids short-circuit to `false` before
any backend call; a thrown lookup or an error response yields `false`; else
the result is `!!data`. -/
def validateProductExists (i : String) (lookup : LookupOutcome) : Bool :=
  if jsStartsWith i "temp-" || jsStartsWith i "demo-" then false
  else
    match lookup with
    | .thrown => false
    | .resp r =>
      match r.error with
      | some _ => false
      | none => r.data.isSome

/-- Modelled from the spec: the backend table behind the hook, reduced to the
set of existing row keys, and the response a healthy
`.select('id').eq('id', id).maybeSingle()` probe returns for it ("Backend
entity table columns: id (key), …"; the table itself is external to the
repository). -/
def probeRespOfRows (rows : List String) (i : String) : IdProbeResp :=
  { data := if rows.contains i then some i else none, error := none }

/-- The per-card timer state derived by `DeliveryOrderCard`. -/
structure TimerState where
  timeElapsed : String
  isOverdue : Bool
  minutesElapsed : Int

/-- JavaScript `%` (remainder with the sign of the dividend). -/
def jsRem (a b : Int) : Int := Int.tmod a b

/-- `updateTimer` of `DeliveryOrderCard`: elapsed whole minutes via
`Math.floor`, an `"Xmin"` label under one hour and an `"Xh Ymin"` label from
one hour on, and the overdue flag `diffMinutes > 20`; `nowMs` and `orderMs`
are the two epoch-millisecond timestamps. -/
def updateTimer (nowMs orderMs : Int) : TimerState :=
  let diffMs := nowMs - orderMs
  let diffMinutes := Int.fdiv diffMs (1000 * 60)
  let diffHours := Int.fdiv diffMinutes 60
  let remainingMinutes := jsRem diffMinutes 60
  { timeElapsed :=
      if diffMinutes < 60 then s!"{diffMinutes}min"
      else s!"{diffHours}h {remainingMinutes}min"
    isOverdue := decide (diffMinutes > 20)
    minutesElapsed := diffMinutes }

/-- Sample demo product used by the concrete witnesses below. -/
def demoSample : DemoProduct :=
  { id := "demo-acai-300"
    name := "Açaí 300g"
    category := .acai
    price := 13.99
    description := "Açaí com complementos" }

theorem any_id_eq_true (prev : List DeliveryProduct) (i : String) :
    prev.any (fun p => p.id == i) = true ↔ ∃ p ∈ prev, p.id = i := by
  simp [List.any_eq_true]

theorem mem_keysOf {l : List DeliveryProduct} {i : String} :
    i ∈ keysOf l ↔ ∃ p ∈ l, p.id = i := by
  simp [keysOf, eq_comm]

theorem noDupKeys_append {st : List DeliveryProduct} {d : DeliveryProduct}
    (h : NoDupKeys st) (hn : d.id ∉ keysOf st) : NoDupKeys (st ++ [d]) := by
  unfold NoDupKeys keysOf at *
  rw [List.map_append]
  exact List.Nodup.append h (List.nodup_singleton _)
    (by simpa [List.disjoint_singleton] using hn)

theorem keysOf_map_replace (st : List DeliveryProduct) (i : String)
    (d : DeliveryProduct) (hd : d.id = i) :
    keysOf (st.map (fun p => if p.id == i then d else p)) = keysOf st := by
  simp only [keysOf, List.map_map]
  refine List.map_congr_left (fun p _ => ?_)
  by_cases hp : p.id = i <;> simp [hp, hd]

/-- One safe mutation preserves the at-most-one-entry-per-key invariant. -/
theorem noDupKeys_applyOp {st : List DeliveryProduct} {op : Op}
    (h : NoDupKeys st) (hs : safeOp st op = true) :
    NoDupKeys (applyOp st op) := by
  cases op with
  | rt payload =>
    rcases payload with ⟨ev, nw, od⟩
    cases ev with
    | INSERT =>
      cases nw with
      | none => exact h
      | some n =>
        simp only [applyOp, handleRealtime, handleInsert]
        by_cases ha : st.any (fun p => p.id == n.id) = true
        · simp [ha]; exact h
        · have hn : n.id ∉ keysOf st := by
            rw [mem_keysOf]
            exact fun hc => ha ((any_id_eq_true st n.id).mpr hc)
          rw [if_neg ha]
          exact noDupKeys_append h hn
    | UPDATE =>
      cases nw with
      | none => exact h
      | some n =>
        simpa only [applyOp, handleRealtime, handleUpdate, NoDupKeys,
          keysOf_map_replace st n.id n rfl] using h
    | DELETE =>
      cases od with
      | none => exact h
      | some o =>
        exact List.Nodup.sublist
          (List.Sublist.map _ (List.filter_sublist st)) h
  | createSuccess d =>
    have ha : st.any (fun p => p.id == d.id) = false := by
      simpa [safeOp] using hs
    have hn : d.id ∉ keysOf st := by
      rw [mem_keysOf]
      intro hc
      exact absurd ((any_id_eq_true st d.id).mpr hc) (by simp [ha])
    exact noDupKeys_append h hn
  | updateSuccess i d =>
    have hd : d.id = i := by simpa [safeOp] using hs
    simpa only [applyOp, NoDupKeys, keysOf_map_replace st i d hd] using h
  | deleteSuccess i =>
    exact List.Nodup.sublist (List.Sublist.map _ (List.filter_sublist st)) h

theorem noDupKeys_foldl_take :
    ∀ (ops : List Op) (init : List DeliveryProduct),
      NoDupKeys init → safeSeq init ops = true →
      ∀ k : Nat, NoDupKeys (List.foldl applyOp init (ops.take k))
  | [], _, h0, _, _ => by simpa using h0
  | _ :: _, _, h0, _, 0 => by simpa using h0
  | op :: ops, init, h0, hs, k + 1 => by
    rw [safeSeq, Bool.and_eq_true] at hs
    have h1 := noDupKeys_applyOp h0 hs.1
    simpa [List.foldl] using
      noDupKeys_foldl_take ops (applyOp init op) h1 hs.2 k

/-- C1 counterexample: from an empty (hence duplicate-free) local list, a
realtime INSERT for key `"k"` followed by a `createProduct` success for the
same key leaves two entries with key `"k"`: the `createProduct` path appends
without an existence check, so the claimed every-interleaving invariant fails
in this order. -/
theorem dup_key_rtInsert_then_create :
    ¬ NoDupKeys (List.foldl applyOp []
      [.rt ⟨.INSERT, some (sampleProduct "k"), none⟩,
       .createSuccess (sampleProduct "k")]) := by
  decide

/-- C1 (amended): starting from a duplicate-free local list, every
interleaving of realtime notifications with CRUD state patches keeps at most
one entry per key at every step, provided each `createProduct` success
appends a key not present locally at that moment (the code performs no
existence check on that path, so a realtime insert of the key must not come
first) and each `updateProduct` success carries the row of its scoped key;
in particular, a `createProduct` success followed by the realtime INSERT for
the same key yields exactly one local entry. -/
theorem noDupKeys_invariant (init : List DeliveryProduct) (ops : List Op)
    (h0 : NoDupKeys init) (hs : safeSeq init ops = true) :
    (∀ k : Nat, NoDupKeys (List.foldl applyOp init (ops.take k)))
    ∧ ∀ (st : List DeliveryProduct) (d : DeliveryProduct),
        d.id ∉ keysOf st →
        (keysOf (applyOp (applyOp st (.createSuccess d))
          (.rt ⟨.INSERT, some d, none⟩))).count d.id = 1 := by
  refine ⟨noDupKeys_foldl_take ops init h0 hs, fun st d hd => ?_⟩
  have ha : (st ++ [d]).any (fun p => p.id == d.id) = true := by simp
  simp only [applyOp, handleRealtime, handleInsert, ha, if_true]
  have h0c : (keysOf st).count d.id = 0 := List.count_eq_zero.mpr hd
  rw [keysOf, List.map_append, List.count_append]
  simpa [keysOf] using h0c

/-- Witness for `noDupKeys_invariant`: the safe sequence "create key `"k"`,
then receive the realtime INSERT for `"k"`" keeps the list duplicate-free,
and the create-then-insert pair leaves exactly one entry for `"k"`. -/
theorem noDupKeys_invariant_witness :
    NoDupKeys (List.foldl applyOp []
      ([Op.createSuccess (sampleProduct "k"),
        Op.rt ⟨.INSERT, some (sampleProduct "k"), none⟩].take 2))
    ∧ (keysOf (applyOp (applyOp [] (.createSuccess (sampleProduct "k")))
        (.rt ⟨.INSERT, some (sampleProduct "k"), none⟩))).count
        (sampleProduct "k").id = 1 :=
  ⟨(noDupKeys_invariant []
      [Op.createSuccess (sampleProduct "k"),
       Op.rt ⟨.INSERT, some (sampleProduct "k"), none⟩]
      (by decide) (by decide)).1 2,
   (noDupKeys_invariant [] [] (by decide) (by decide)).2 []
      (sampleProduct "k") (by decide)⟩

/-- C2: a realtime INSERT whose key is already present leaves the local list
unchanged (so applying the same insert twice equals applying it once), and an
INSERT with a fresh key appends the new record at the end, keeping every
existing record unchanged and in its original order. -/
theorem rtInsert_dedup_append (prev : List DeliveryProduct)
    (n : DeliveryProduct) :
    ((∃ p ∈ prev, p.id = n.id) →
      handleRealtime ⟨.INSERT, some n, none⟩ prev = prev)
    ∧ ((¬ ∃ p ∈ prev, p.id = n.id) →
      handleRealtime ⟨.INSERT, some n, none⟩ prev = prev ++ [n])
    ∧ handleRealtime ⟨.INSERT, some n, none⟩
        (handleRealtime ⟨.INSERT, some n, none⟩ prev) =
        handleRealtime ⟨.INSERT, some n, none⟩ prev := by
  refine ⟨fun h => ?_, fun h => ?_, ?_⟩
  · have ha : prev.any (fun p => p.id == n.id) = true :=
      (any_id_eq_true prev n.id).mpr h
    simp [handleRealtime, handleInsert, ha]
  · have ha : prev.any (fun p => p.id == n.id) = false := by
      rw [← Bool.not_eq_true, any_id_eq_true]; exact h
    simp [handleRealtime, handleInsert, ha]
  · by_cases h : ∃ p ∈ prev, p.id = n.id
    · have ha : prev.any (fun p => p.id == n.id) = true :=
        (any_id_eq_true prev n.id).mpr h
      simp [handleRealtime, handleInsert, ha]
    · have ha : prev.any (fun p => p.id == n.id) = false := by
        rw [← Bool.not_eq_true, any_id_eq_true]; exact h
      have hb : (prev ++ [n]).any (fun p => p.id == n.id) = true := by
        simp
      simp [handleRealtime, handleInsert, ha, hb]

/-- Witness for `rtInsert_dedup_append` at concrete inputs: inserting a fresh
key `"b"` into `[a]` appends it; inserting the already-present key `"a"` is a
no-op. -/
theorem rtInsert_dedup_append_witness :
    handleRealtime ⟨.INSERT, some (sampleProduct "b"), none⟩
        [sampleProduct "a"] = [sampleProduct "a", sampleProduct "b"]
    ∧ handleRealtime ⟨.INSERT, some (sampleProduct "a"), none⟩
        [sampleProduct "a"] = [sampleProduct "a"] :=
  ⟨(rtInsert_dedup_append [sampleProduct "a"] (sampleProduct "b")).2.1
      (by simp [sampleProduct]),
   (rtInsert_dedup_append [sampleProduct "a"] (sampleProduct "a")).1
      ⟨sampleProduct "a", by simp⟩⟩

/-- C7: a realtime UPDATE or DELETE for a key absent from the local list is a
no-op (no error, no new entry); when the key is present, UPDATE replaces the
matching record in place (every position holds either its old record, when its
key differs, or the new record) and DELETE removes it (the key no longer
occurs among the local keys). -/
theorem rtUpdate_rtDelete_spec (prev : List DeliveryProduct)
    (n o : DeliveryProduct) :
    ((∀ p ∈ prev, p.id ≠ n.id) →
      handleRealtime ⟨.UPDATE, some n, none⟩ prev = prev)
    ∧ ((∀ p ∈ prev, p.id ≠ o.id) →
      handleRealtime ⟨.DELETE, none, some o⟩ prev = prev)
    ∧ (∀ i : Nat, (handleRealtime ⟨.UPDATE, some n, none⟩ prev)[i]? =
        (prev[i]?).map (fun p => if p.id = n.id then n else p))
    ∧ o.id ∉ keysOf (handleRealtime ⟨.DELETE, none, some o⟩ prev) := by
  refine ⟨fun h => ?_, fun h => ?_, fun i => ?_, ?_⟩
  · have : prev.map (fun p => if p.id == n.id then n else p) = prev.map id :=
      List.map_congr_left (fun p hp => by simp [h p hp])
    simp only [handleRealtime, handleUpdate, this, List.map_id]
  · have : ∀ p ∈ prev, (p.id ≠ o.id : Bool) = true := fun p hp => by
      simp [h p hp]
    simp only [handleRealtime, handleDelete, List.filter_eq_self.mpr this]
  · simp only [handleRealtime, handleUpdate, List.getElem?_map]
    cases prev[i]? with
    | none => rfl
    | some p => by_cases hp : p.id = n.id <;> simp [hp]
  · simp [handleRealtime, handleDelete, keysOf]

/-- Witness for `rtUpdate_rtDelete_spec` at concrete inputs: UPDATE and DELETE
notifications for the absent key `"z"` leave `[a]` unchanged. -/
theorem rtUpdate_rtDelete_spec_witness :
    handleRealtime ⟨.UPDATE, some (sampleProduct "z"), none⟩
        [sampleProduct "a"] = [sampleProduct "a"]
    ∧ handleRealtime ⟨.DELETE, none, some (sampleProduct "z")⟩
        [sampleProduct "a"] = [sampleProduct "a"] :=
  ⟨(rtUpdate_rtDelete_spec [sampleProduct "a"] (sampleProduct "z")
        (sampleProduct "z")).1 (by simp [sampleProduct]),
   (rtUpdate_rtDelete_spec [sampleProduct "a"] (sampleProduct "z")
        (sampleProduct "z")).2.1 (by simp [sampleProduct])⟩

theorem updateTimer_shift (nowMs orderMs : Int) :
    updateTimer nowMs orderMs = updateTimer (nowMs - orderMs) 0 := by
  simp [updateTimer]

/-- C4 counterexample: for a creation timestamp exactly 45 minutes in the
past the timer renders `"45min"` (the hour prefix appears only from 60
minutes on), not the claimed `"0h 45min"`; the overdue flag is indeed set. -/
theorem timer_45min_label_not_0h45 :
    (updateTimer (45 * 60 * 1000) 0).timeElapsed = "45min"
    ∧ (updateTimer (45 * 60 * 1000) 0).timeElapsed ≠ "0h 45min"
    ∧ (updateTimer (45 * 60 * 1000) 0).isOverdue = true := by
  decide

/-- C4 (amended): for a creation timestamp exactly 45 minutes before the
current time, the elapsed-time computation produces the label `"45min"`
(hours are shown only once the elapsed minutes reach 60) and sets the overdue
flag; in general the overdue flag is true exactly when the elapsed whole
minutes exceed 20. -/
theorem timer_label_overdue (nowMs orderMs : Int) :
    ((updateTimer nowMs orderMs).isOverdue = true ↔
      20 < (updateTimer nowMs orderMs).minutesElapsed)
    ∧ (updateTimer (orderMs + 45 * 60 * 1000) orderMs).timeElapsed = "45min"
    ∧ (updateTimer (orderMs + 45 * 60 * 1000) orderMs).isOverdue = true := by
  refine ⟨by simp [updateTimer], ?_, ?_⟩
  · rw [updateTimer_shift, add_sub_cancel_left]
    decide
  · rw [updateTimer_shift, add_sub_cancel_left]
    decide

/-- C5: `createProduct` changes the local list only by appending a returned
row with a non-empty id; an error-free response lacking data or carrying an
empty id yields the dedicated missing-data failure, distinct from every
thrown backend error, with the local list untouched. -/
theorem createProduct_valid_key_spec (cfg : EnvConfig) (resp : SingleResp)
    (prev : List DeliveryProduct) (hcfg : urlMissing cfg = false) :
    ((createProduct cfg resp prev).2 ≠ prev →
      ∃ d, resp.error = none ∧ resp.data = some d ∧ d.id ≠ "" ∧
        createProduct cfg resp prev = (.ok d, prev ++ [d]))
    ∧ (resp.error = none →
        (resp.data = none ∨ ∃ d, resp.data = some d ∧ d.id = "") →
        createProduct cfg resp prev = (.error .noData, prev))
    ∧ (∀ m, (CreateErr.noData : CreateErr) ≠ .backend m) := by
  obtain ⟨dta, err⟩ := resp
  refine ⟨fun hne => ?_, fun he hd => ?_, fun m => by simp⟩
  · cases err with
    | some e => simp [createProduct, hcfg] at hne
    | none =>
      cases dta with
      | none => simp [createProduct, hcfg] at hne
      | some d =>
        by_cases hid : d.id = ""
        · simp [createProduct, hcfg, hid] at hne
        · exact ⟨d, rfl, rfl, hid, by simp [createProduct, hcfg, hid]⟩
  · cases he
    rcases hd with h | ⟨d, hd, hid⟩
    · cases h
      simp [createProduct, hcfg]
    · cases hd
      simp [createProduct, hcfg, hid]

/-- Witness for `createProduct_valid_key_spec`: with a configured URL and an
error-free response carrying no data, `createProduct` reports the
missing-data failure and keeps the empty local list. -/
theorem createProduct_valid_key_witness :
    createProduct ⟨some "https://example.supabase.co", some "anon"⟩
      ⟨none, none⟩ [] = (.error .noData, []) :=
  (createProduct_valid_key_spec ⟨some "https://example.supabase.co", some "anon"⟩
    ⟨none, none⟩ [] (by decide)).2.1 rfl (Or.inl rfl)

/-- C6: with absent or placeholder backend credentials, `fetchProducts` does
not fail and reports no error: whatever the backend response would have been,
it maps the static demo list into `DeliveryProduct` shape, sets it as the
local collection and clears the loading flag. -/
theorem fetchProducts_fallback_demo (cfg : EnvConfig)
    (demo : List DemoProduct) (now : String) (resp : ListResp)
    (h : configMissing cfg = true) :
    fetchProducts cfg demo now resp =
      { products := demo.map (mapDemoProduct now), loading := false,
        error := none } := by
  simp [fetchProducts, h]

/-- Witness for `fetchProducts_fallback_demo`: both credentials absent, one
demo product, arbitrary error-free response. -/
theorem fetchProducts_fallback_demo_witness :
    fetchProducts ⟨none, none⟩ [demoSample] "2025-01-01T00:00:00.000Z"
        ⟨none, none⟩ =
      { products := [mapDemoProduct "2025-01-01T00:00:00.000Z" demoSample],
        loading := false, error := none } :=
  fetchProducts_fallback_demo ⟨none, none⟩ [demoSample]
    "2025-01-01T00:00:00.000Z" ⟨none, none⟩ rfl

/-- C3: in the hook revision that disambiguates zero rows affected (surfaced
by the write as error code PGRST116, per the code's own handling), an update
whose scoped write affects zero rows while the row still exists server-side
(the re-probe returns it) succeeds and returns the current record; when the
re-probe finds no row with the key, the call raises the not-found error and
leaves the local list unchanged. -/
theorem updateProduct_v3_noop_vs_notFound (cfg : EnvConfig) (i : String)
    (e : PgError) (recheckResp : SingleResp) (prev : List DeliveryProduct)
    (hcfg : urlMissing cfg = false) (hcode : e.code = "PGRST116") :
    ((∀ r, recheckResp = ⟨some r, none⟩ →
      updateProduct_v3 cfg i ⟨none, some e⟩ recheckResp prev =
        (.ok r, prev.map (fun p => if p.id == i then r else p))))
    ∧ (recheckResp.data = none →
      updateProduct_v3 cfg i ⟨none, some e⟩ recheckResp prev =
        (.err .notFoundAfterNoRows, prev)) := by
  constructor
  · intro r hr
    subst hr
    simp [updateProduct_v3, hcfg, hcode]
  · intro hd
    obtain ⟨dta, err⟩ := recheckResp
    cases hd
    cases err <;> simp [updateProduct_v3, hcfg, hcode]

/-- Witness for `updateProduct_v3_noop_vs_notFound`: a PGRST116 write error
with a successful re-probe returns the existing row; the same error with an
empty re-probe raises not-found and keeps the empty list. -/
theorem updateProduct_v3_noop_vs_notFound_witness :
    updateProduct_v3 ⟨some "https://example.supabase.co", some "anon"⟩ "u"
        ⟨none, some ⟨"PGRST116", "zero rows"⟩⟩
        ⟨some (sampleProduct "u"), none⟩ [] = (.ok (sampleProduct "u"), [])
    ∧ updateProduct_v3 ⟨some "https://example.supabase.co", some "anon"⟩ "u"
        ⟨none, some ⟨"PGRST116", "zero rows"⟩⟩ ⟨none, none⟩ [] =
      (.err .notFoundAfterNoRows, []) :=
  ⟨(updateProduct_v3_noop_vs_notFound
      ⟨some "https://example.supabase.co", some "anon"⟩ "u"
      ⟨"PGRST116", "zero rows"⟩ ⟨some (sampleProduct "u"), none⟩ []
      (by decide) rfl).1 (sampleProduct "u") rfl,
   (updateProduct_v3_noop_vs_notFound
      ⟨some "https://example.supabase.co", some "anon"⟩ "u"
      ⟨"PGRST116", "zero rows"⟩ ⟨none, none⟩ []
      (by decide) rfl).2 rfl⟩

/-- C9: an id beginning with `temp-` or `demo-` makes `updateProduct` fail
with the local placeholder-id validation error before any backend
interaction: the outcome is the same for every configuration and every pair
of backend responses, and the local list is unchanged. -/
theorem updateProduct_rejects_placeholder_ids (cfg : EnvConfig) (i : String)
    (checkResp : IdProbeResp) (updResp : SingleResp)
    (prev : List DeliveryProduct)
    (h : jsStartsWith i "temp-" = true ∨ jsStartsWith i "demo-" = true) :
    updateProduct_main cfg i checkResp updResp prev =
      (.error .tempId, prev) := by
  rcases h with h | h <;> simp [updateProduct_main, h]

/-- Witness for `updateProduct_rejects_placeholder_ids` at the concrete id
`"temp-1"`. -/
theorem updateProduct_rejects_placeholder_ids_witness :
    updateProduct_main ⟨none, none⟩ "temp-1" ⟨none, none⟩ ⟨none, none⟩ [] =
      (.error .tempId, []) :=
  updateProduct_rejects_placeholder_ids ⟨none, none⟩ "temp-1"
    ⟨none, none⟩ ⟨none, none⟩ [] (Or.inl (by decide))

/-- C10: `validateProductExists` is total over its error cases: placeholder
ids yield `false` for every lookup outcome (no backend call is consulted), a
thrown lookup yields `false`, an error response yields `false`, and against a
healthy backend probe over the existing row keys it returns `true` exactly
when a row with the id exists. -/
theorem validateProductExists_total (i : String) (rows : List String) :
    ((jsStartsWith i "temp-" = true ∨ jsStartsWith i "demo-" = true) →
      ∀ lookup, validateProductExists i lookup = false)
    ∧ validateProductExists i .thrown = false
    ∧ (∀ (r : IdProbeResp) (e : PgError), r.error = some e →
        validateProductExists i (.resp r) = false)
    ∧ (jsStartsWith i "temp-" = false → jsStartsWith i "demo-" = false →
        (validateProductExists i (.resp (probeRespOfRows rows i)) = true ↔
          i ∈ rows)) := by
  refine ⟨fun h lookup => ?_, ?_, fun r e he => ?_, fun h1 h2 => ?_⟩
  · rcases h with h | h <;> simp [validateProductExists, h]
  · unfold validateProductExists
    split
    · rfl
    · rfl
  · obtain ⟨dta, err⟩ := r
    cases he
    unfold validateProductExists
    split
    · rfl
    · rfl
  · simp only [validateProductExists, h1, h2, Bool.or_self,
      Bool.false_eq_true, if_false, probeRespOfRows]
    by_cases hm : i ∈ rows
    · simp [hm]
    · simp [hm]

/-- Witness for `validateProductExists_total`: a placeholder id is rejected
without a lookup, a thrown lookup yields `false`, an error response yields
`false`, and a healthy probe finds the existing key `"p1"`. -/
theorem validateProductExists_total_witness :
    validateProductExists "temp-9" (.resp ⟨some "temp-9", none⟩) = false
    ∧ validateProductExists "p1" .thrown = false
    ∧ validateProductExists "p1" (.resp ⟨none, some ⟨"500", "boom"⟩⟩) = false
    ∧ (validateProductExists "p1" (.resp (probeRespOfRows ["p1"] "p1")) = true
        ↔ "p1" ∈ ["p1"]) :=
  ⟨(validateProductExists_total "temp-9" []).1 (Or.inl (by decide))
      (.resp ⟨some "temp-9", none⟩),
   (validateProductExists_total "p1" []).2.1,
   (validateProductExists_total "p1" []).2.2.1 ⟨none, some ⟨"500", "boom"⟩⟩
      ⟨"500", "boom"⟩ rfl,
   (validateProductExists_total "p1" ["p1"]).2.2.2 (by decide) (by decide)⟩

theorem mem_omitKeys {o : JsObj} {ks : List String} {kv : String × JsVal} :
    kv ∈ omitKeys o ks ↔ kv ∈ o ∧ kv.1 ∉ ks := by
  simp [omitKeys, List.mem_filter]

theorem getProp_eq_of_mem {o : JsObj} (hnd : (o.map Prod.fst).Nodup)
    {kv : String × JsVal} (hm : kv ∈ o) : getProp o kv.1 = kv.2 := by
  induction o with
  | nil => cases hm
  | cons x rest ih =>
    rw [List.map_cons, List.nodup_cons] at hnd
    rcases List.mem_cons.mp hm with h | hr
    · subst h
      simp [getProp]
    · have hne : (x.1 == kv.1) = false := by
        refine beq_eq_false_iff_ne.mpr (fun he => hnd.1 ?_)
        exact he ▸ List.mem_map_of_mem Prod.fst hr
      have hstep : List.find? (fun kv' => kv'.1 == kv.1) (x :: rest) =
          List.find? (fun kv' => kv'.1 == kv.1) rest :=
        List.find?_cons_of_neg _ (by simp [hne])
      simp only [getProp] at ih ⊢
      rw [hstep]
      exact ih hnd.2 hr

theorem mem_setProp_of_ne {o : JsObj} {k : String} {v : JsVal}
    {kv : String × JsVal} (h : kv ∈ o) (hne : kv.1 ≠ k) :
    kv ∈ setProp o k v := by
  unfold setProp
  split
  · exact List.mem_map.mpr ⟨kv, h, by simp [hne]⟩
  · exact List.mem_append_left _ h

theorem self_mem_setProp (o : JsObj) (k : String) (v : JsVal) :
    (k, v) ∈ setProp o k v := by
  unfold setProp
  split
  case isTrue ha =>
    rcases List.any_eq_true.mp ha with ⟨kv', h1, h2⟩
    exact List.mem_map.mpr ⟨kv', h1, by simp [h2]⟩
  case isFalse ha => exact List.mem_append_right _ (by simp)

theorem mem_setProp_elim {o : JsObj} {k : String} {v : JsVal}
    {kv : String × JsVal} (h : kv ∈ setProp o k v) :
    kv = (k, v) ∨ (kv ∈ o ∧ kv.1 ≠ k) := by
  unfold setProp at h
  by_cases ha : o.any (fun kv' => kv'.1 == k) = true
  · rw [if_pos ha] at h
    rcases List.mem_map.mp h with ⟨kv', hkv', he⟩
    by_cases hk : (kv'.1 == k) = true
    · left
      simp only [hk, if_true] at he
      exact he.symm
    · right
      simp only [hk, Bool.false_eq_true, if_false] at he
      subst he
      exact ⟨hkv', by simpa using hk⟩
  · rw [if_neg ha] at h
    rcases List.mem_append.mp h with h1 | h1
    · right
      refine ⟨h1, fun he => ?_⟩
      exact ha (List.any_eq_true.mpr ⟨kv, h1, by simp [he]⟩)
    · left
      simpa using h1

theorem mem_clean_cg_of_ne {o : JsObj} {kv : String × JsVal} (h : kv ∈ o)
    (hne : kv.1 ≠ "complement_groups") : kv ∈ cleanComplementGroups o := by
  unfold cleanComplementGroups
  split
  · exact mem_setProp_of_ne h hne
  · exact h

theorem mem_clean_cg_elim {o : JsObj} {kv : String × JsVal}
    (h : kv ∈ cleanComplementGroups o) :
    kv ∈ o ∨ kv = ("complement_groups",
      if (getProp o "complement_groups").isArray then
        getProp o "complement_groups"
      else .null) := by
  unfold cleanComplementGroups at h
  split at h
  · rcases mem_setProp_elim h with h1 | h1
    · right; exact h1
    · left; exact h1.1
  · left; exact h

/-- C8 counterexample: the defined, non-server-managed patch entry
`complement_groups: {}` (truthy, not an array) is not passed through to the
write payload — the normalization replaces it by `null` — refuting the claim
that all such entries are passed through. -/
theorem safeUpdate_cg_not_passed :
    ("complement_groups", JsVal.obj []) ∈
      ([("complement_groups", JsVal.obj [])] : JsObj)
    ∧ ("complement_groups", JsVal.obj []).2.isUndefined = false
    ∧ ("complement_groups", JsVal.obj []) ∉
        safeUpdate [("complement_groups", JsVal.obj [])]
          "2025-01-01T00:00:00.000Z" := by
  refine ⟨List.mem_cons_self _ _, rfl, ?_⟩
  have h : safeUpdate [("complement_groups", JsVal.obj [])]
      "2025-01-01T00:00:00.000Z" =
      [("complement_groups", JsVal.null),
       ("updated_at", JsVal.str "2025-01-01T00:00:00.000Z")] := rfl
  rw [h]
  simp

/-- C8 (amended): for a well-formed patch (unique keys drawn from the
`DeliveryProduct` field names), the `safeUpdate` write payload contains no
`id` or `created_at` entry from the patch, every `updated_at` entry it
contains is the freshly stamped one, it contains no `undefined` value and it
does contain the fresh `updated_at`; every other defined patch entry is
passed through unchanged, except `complement_groups`, which is passed
through only when falsy or an array and is replaced by `null` when truthy
and not an array. -/
theorem safeUpdate_payload_spec (updates : JsObj) (now : String)
    (hnd : (updates.map Prod.fst).Nodup)
    (hkeys : ∀ kv ∈ updates, kv.1 ∈ productPatchKeys) :
    (∀ kv ∈ safeUpdate updates now,
      kv.1 ≠ "id" ∧ kv.1 ≠ "created_at" ∧
        (kv.1 = "updated_at" → kv.2 = .str now))
    ∧ (∀ kv ∈ safeUpdate updates now, kv.2.isUndefined = false)
    ∧ ("updated_at", JsVal.str now) ∈ safeUpdate updates now
    ∧ (∀ kv ∈ updates,
        kv.1 ∉ (["id", "created_at", "updated_at"] : List String) →
        kv.2.isUndefined = false →
        (kv.1 ≠ "complement_groups" ∨ kv.2.truthy = false ∨
          kv.2.isArray = true) →
        kv ∈ safeUpdate updates now)
    ∧ (∀ v : JsVal, ("complement_groups", v) ∈ updates →
        v.truthy = true → v.isArray = false →
        ("complement_groups", JsVal.null) ∈ safeUpdate updates now) := by
  have hsu : safeUpdate updates now =
      (setProp (cleanComplementGroups (omitKeys updates
          ["created_at", "updated_at", "has_complements", "id"]))
        "updated_at" (.str now)).filter (fun kv => !kv.2.isUndefined) := rfl
  have hndc : ((omitKeys updates
      ["created_at", "updated_at", "has_complements", "id"]).map
        Prod.fst).Nodup :=
    List.Nodup.sublist (List.Sublist.map _ (List.filter_sublist updates)) hnd
  refine ⟨fun kv hm => ?_, fun kv hm => ?_, ?_, fun kv hm hmng hdef hcg => ?_,
    fun v hmem htr har => ?_⟩
  · rw [hsu, List.mem_filter] at hm
    rcases mem_setProp_elim hm.1 with h1 | ⟨h1, _⟩
    · subst h1
      exact ⟨by simp, by simp, fun _ => rfl⟩
    · rcases mem_clean_cg_elim h1 with h2 | h2
      · have h3 := mem_omitKeys.mp h2
        exact ⟨fun he => h3.2 (by rw [he]; decide),
          fun he => h3.2 (by rw [he]; decide),
          fun he => absurd (by decide :
            ("updated_at" : String) ∈
              ["created_at", "updated_at", "has_complements", "id"])
            (he ▸ h3.2)⟩
      · rw [h2]
        exact ⟨by simp, by simp, fun he => absurd he (by simp)⟩
  · rw [hsu, List.mem_filter] at hm
    simpa using hm.2
  · rw [hsu, List.mem_filter]
    exact ⟨self_mem_setProp _ _ _, rfl⟩
  · have hknotks : kv.1 ∉
        (["created_at", "updated_at", "has_complements", "id"] :
          List String) := by
      intro hin
      rcases List.mem_cons.mp hin with h | hin
      · exact hmng (by rw [h]; decide)
      rcases List.mem_cons.mp hin with h | hin
      · exact hmng (by rw [h]; decide)
      rcases List.mem_cons.mp hin with h | hin
      · have hk := hkeys kv hm
        rw [h] at hk
        exact absurd hk (by decide)
      rcases List.mem_cons.mp hin with h | hin
      · exact hmng (by rw [h]; decide)
      · cases hin
    have h1 : kv ∈ omitKeys updates
        ["created_at", "updated_at", "has_complements", "id"] :=
      mem_omitKeys.mpr ⟨hm, hknotks⟩
    have h2 : kv ∈ cleanComplementGroups (omitKeys updates
        ["created_at", "updated_at", "has_complements", "id"]) := by
      by_cases hcgk : kv.1 = "complement_groups"
      · have hget : getProp (omitKeys updates
            ["created_at", "updated_at", "has_complements", "id"])
            "complement_groups" = kv.2 := by
          rw [← hcgk]
          exact getProp_eq_of_mem hndc h1
        unfold cleanComplementGroups
        rw [hget]
        by_cases ht : kv.2.truthy = true
        · rw [if_pos ht]
          rcases hcg with h | h | h
          · exact absurd hcgk h
          · rw [ht] at h; cases h
          · rw [if_pos h]
            have hkv : kv = ("complement_groups", kv.2) := by
              rw [← hcgk]
            rw [hkv]
            exact self_mem_setProp _ _ _
        · rw [if_neg ht]
          exact h1
      · exact mem_clean_cg_of_ne h1 hcgk
    have h3 : kv ∈ setProp (cleanComplementGroups (omitKeys updates
        ["created_at", "updated_at", "has_complements", "id"]))
        "updated_at" (.str now) :=
      mem_setProp_of_ne h2 (fun he => hmng (by rw [he]; decide))
    rw [hsu, List.mem_filter]
    exact ⟨h3, by simp [hdef]⟩
  · have h1 : ("complement_groups", v) ∈ omitKeys updates
        ["created_at", "updated_at", "has_complements", "id"] :=
      mem_omitKeys.mpr ⟨hmem, by simp⟩
    have hget : getProp (omitKeys updates
        ["created_at", "updated_at", "has_complements", "id"])
        "complement_groups" = v := getProp_eq_of_mem hndc h1
    have h2 : ("complement_groups", JsVal.null) ∈
        cleanComplementGroups (omitKeys updates
          ["created_at", "updated_at", "has_complements", "id"]) := by
      unfold cleanComplementGroups
      rw [hget, if_pos htr, if_neg (by simp [har])]
      exact self_mem_setProp _ _ _
    have h3 := mem_setProp_of_ne (k := "updated_at") (v := .str now) h2
      (by decide)
    rw [hsu, List.mem_filter]
    exact ⟨h3, rfl⟩

/-- Witness for `safeUpdate_payload_spec`: for the patch
`{price: 12, name: "X"}` the payload contains the fresh `updated_at` and
passes the `price` entry through. -/
theorem safeUpdate_payload_witness :
    ("updated_at", JsVal.str "t") ∈
      safeUpdate [("price", JsVal.num 12), ("name", JsVal.str "X")] "t"
    ∧ ("price", JsVal.num 12) ∈
      safeUpdate [("price", JsVal.num 12), ("name", JsVal.str "X")] "t" :=
  ⟨(safeUpdate_payload_spec [("price", JsVal.num 12), ("name", JsVal.str "X")]
      "t" (by decide) (by decide)).2.2.1,
   (safeUpdate_payload_spec [("price", JsVal.num 12), ("name", JsVal.str "X")]
      "t" (by decide) (by decide)).2.2.2.1
      ("price", JsVal.num 12) (List.mem_cons_self _ _) (by decide) rfl
      (Or.inl (by decide))⟩

end Elite
